import Mathlib

/-!
Verification development for the LNURL-auth flow of
`src/extension/background-script/actions/lnurl/auth.ts`.

The file shallowly embeds the two functions of that module, `auth` and
`authWithPrompt`, together with the cryptographic primitives they use
(SHA-256 and HMAC-SHA256 from crypto-js, modelled here as genuine
byte-level implementations over `Nat`).  External collaborators — the
wallet connector, the consent prompt, the Dexie trust store, axios and
PubSub — are modelled as explicit inputs (an `Env` record) and an
effect trace, following the way the module consumes them.
-/

set_option maxRecDepth 100000

namespace LnurlAuth

/-! ## 32-bit word arithmetic over `Nat` -/

/-- Truncate to a 32-bit word. -/
def w32 (n : Nat) : Nat := n % 4294967296

/-- Right rotation of a 32-bit word. -/
def rotr (n x : Nat) : Nat := w32 ((x >>> n) ||| (x <<< (32 - n)))

/-! ## SHA-256 (the `crypto-js/sha256` primitive, byte-level) -/

/-- SHA-256 round constants (FIPS 180-4, here as decimal words). -/
def shaK : List Nat :=
  [1116352408, 1899447441, 3049323471, 3921009573,
   961987163, 1508970993, 2453635748, 2870763221,
   3624381080, 310598401, 607225278, 1426881987,
   1925078388, 2162078206, 2614888103, 3248222580,
   3835390401, 4022224774, 264347078, 604807628,
   770255983, 1249150122, 1555081692, 1996064986,
   2554220882, 2821834349, 2952996808, 3210313671,
   3336571891, 3584528711, 113926993, 338241895,
   666307205, 773529912, 1294757372, 1396182291,
   1695183700, 1986661051, 2177026350, 2456956037,
   2730485921, 2820302411, 3259730800, 3345764771,
   3516065817, 3600352804, 4094571909, 275423344,
   430227734, 506948616, 659060556, 883997877,
   958139571, 1322822218, 1537002063, 1747873779,
   1955562222, 2024104815, 2227730452, 2361852424,
   2428436474, 2756734187, 3204031479, 3329325298]

/-- SHA-256 initial hash value (decimal words). -/
def shaH0 : List Nat :=
  [1779033703, 3144134277, 1013904242, 2773480762,
   1359893119, 2600822924, 528734635, 1541459225]

/-- Message-schedule sigma-0. -/
def sigma0 (x : Nat) : Nat := (rotr 7 x) ^^^ (rotr 18 x) ^^^ (x >>> 3)

/-- Message-schedule sigma-1. -/
def sigma1 (x : Nat) : Nat := (rotr 17 x) ^^^ (rotr 19 x) ^^^ (x >>> 10)

/-- Compression Sigma-0. -/
def bigS0 (x : Nat) : Nat := (rotr 2 x) ^^^ (rotr 13 x) ^^^ (rotr 22 x)

/-- Compression Sigma-1. -/
def bigS1 (x : Nat) : Nat := (rotr 6 x) ^^^ (rotr 11 x) ^^^ (rotr 25 x)

/-- Choice function. -/
def chf (x y z : Nat) : Nat := (x &&& y) ^^^ ((x ^^^ 0xffffffff) &&& z)

/-- Majority function. -/
def majf (x y z : Nat) : Nat := (x &&& y) ^^^ (x &&& z) ^^^ (y &&& z)

/-- Extend a 16-word block by `k` further schedule words. -/
def extendSchedule : List Nat → Nat → List Nat
  | w, 0 => w
  | w, Nat.succ k =>
      let i := w.length
      let nw := w32 (sigma1 (w.getD (i - 2) 0) + w.getD (i - 7) 0 +
        sigma0 (w.getD (i - 15) 0) + w.getD (i - 16) 0)
      extendSchedule (w ++ [nw]) k

/-- Working state of the SHA-256 compression loop. -/
structure S8 where
  a : Nat
  b : Nat
  c : Nat
  d : Nat
  e : Nat
  f : Nat
  g : Nat
  hh : Nat
deriving Repr, DecidableEq

/-- One compression round; `kw` is the (already truncated) sum of the round
constant and the schedule word. -/
def shaRound (s : S8) (kw : Nat) : S8 :=
  let t1 := w32 (s.hh + bigS1 s.e + chf s.e s.f s.g + kw)
  let t2 := w32 (bigS0 s.a + majf s.a s.b s.c)
  ⟨w32 (t1 + t2), s.a, s.b, s.c, w32 (s.d + t1), s.e, s.f, s.g⟩

/-- Compress one 16-word block into the running hash value. -/
def shaCompress (hs : List Nat) (block : List Nat) : List Nat :=
  let ws := extendSchedule block 48
  let kws := List.zipWith (fun k w => w32 (k + w)) shaK ws
  let s0 : S8 := ⟨hs.getD 0 0, hs.getD 1 0, hs.getD 2 0, hs.getD 3 0,
    hs.getD 4 0, hs.getD 5 0, hs.getD 6 0, hs.getD 7 0⟩
  let sf := kws.foldl shaRound s0
  [w32 (hs.getD 0 0 + sf.a), w32 (hs.getD 1 0 + sf.b),
   w32 (hs.getD 2 0 + sf.c), w32 (hs.getD 3 0 + sf.d),
   w32 (hs.getD 4 0 + sf.e), w32 (hs.getD 5 0 + sf.f),
   w32 (hs.getD 6 0 + sf.g), w32 (hs.getD 7 0 + sf.hh)]

/-- Big-endian 4-byte encoding of a 32-bit word. -/
def be4 (n : Nat) : List Nat :=
  [(n >>> 24) % 256, (n >>> 16) % 256, (n >>> 8) % 256, n % 256]

/-- Big-endian 8-byte encoding. -/
def be8 (n : Nat) : List Nat :=
  [(n >>> 56) % 256, (n >>> 48) % 256, (n >>> 40) % 256, (n >>> 32) % 256,
   (n >>> 24) % 256, (n >>> 16) % 256, (n >>> 8) % 256, n % 256]

/-- SHA-256 padding: append `0x80`, zero bytes, and the 64-bit bit length. -/
def padMsg (msg : List Nat) : List Nat :=
  let l := msg.length
  let zeros := (64 - ((l + 9) % 64)) % 64
  msg ++ [0x80] ++ List.replicate zeros 0 ++ be8 (8 * l)

/-- Split a byte list into `n`-byte chunks; `fuel` bounds the recursion and
is structurally consumed so the function reduces definitionally. -/
def chunksAux (n : Nat) : Nat → List Nat → List (List Nat)
  | 0, _ => []
  | Nat.succ fuel, bs =>
      if bs = [] then [] else bs.take n :: chunksAux n fuel (bs.drop n)

/-- Split a byte list into 64-byte chunks. -/
def chunks64 (bs : List Nat) : List (List Nat) := chunksAux 64 bs.length bs

/-- Split a byte list into 4-byte chunks. -/
def chunks4 (bs : List Nat) : List (List Nat) := chunksAux 4 bs.length bs

/-- Interpret a 64-byte chunk as 16 big-endian 32-bit words. -/
def toWords (bs : List Nat) : List Nat :=
  (chunks4 bs).map fun c =>
    c.getD 0 0 * 16777216 + c.getD 1 0 * 65536 + c.getD 2 0 * 256 + c.getD 3 0

/-- SHA-256 of a byte list, as the 32-byte digest. -/
def sha256Bytes (msg : List Nat) : List Nat :=
  let blocks := (chunks64 (padMsg msg)).map toWords
  let hs := blocks.foldl shaCompress shaH0
  (hs.map be4).flatten

/-! ## HMAC-SHA256 (the `crypto-js/hmac-sha256` primitive) -/

/-- HMAC-SHA256 with byte-list key and message.  A string key, as crypto-js
uses here, enters as its UTF-8 bytes. -/
def hmacSha256 (key msg : List Nat) : List Nat :=
  let k0 := if key.length > 64 then sha256Bytes key else key
  let kp := k0 ++ List.replicate (64 - k0.length) 0
  let ipad := kp.map (· ^^^ 0x36)
  let opad := kp.map (· ^^^ 0x5c)
  sha256Bytes (opad ++ sha256Bytes (ipad ++ msg))

/-! ## Hex and UTF-8 helpers -/

/-- Lower-case hex digit for a value below 16. -/
def hexDigit (n : Nat) : Char :=
  if n < 10 then Char.ofNat (48 + n) else Char.ofNat (87 + n)

/-- Lower-case hex encoding of a byte list, two digits per byte (the
`toString(Hex)` of crypto-js). -/
def hexStr (bs : List Nat) : String :=
  String.mk (bs.flatMap fun b => [hexDigit ((b / 16) % 16), hexDigit (b % 16)])

/-- UTF-8 encoding of one code point. -/
def utf8Char (n : Nat) : List Nat :=
  if n < 0x80 then [n]
  else if n < 0x800 then
    [0xc0 ||| (n >>> 6), 0x80 ||| (n &&& 0x3f)]
  else if n < 0x10000 then
    [0xe0 ||| (n >>> 12), 0x80 ||| ((n >>> 6) &&& 0x3f), 0x80 ||| (n &&& 0x3f)]
  else
    [0xf0 ||| (n >>> 18), 0x80 ||| ((n >>> 12) &&& 0x3f),
     0x80 ||| ((n >>> 6) &&& 0x3f), 0x80 ||| (n &&& 0x3f)]

/-- UTF-8 bytes of a string. -/
def utf8 (s : String) : List Nat := s.data.flatMap fun c => utf8Char c.toNat

/-- ASCII lower-casing, the semantics JavaScript's `toLowerCase` has on the
ASCII host names involved here. -/
def strLower (s : String) : String := String.mk (s.data.map Char.toLower)

/-- ASCII upper-casing, the semantics JavaScript's `toUpperCase` has on the
ASCII status strings involved here. -/
def strUpper (s : String) : String := String.mk (s.data.map Char.toUpper)

/-- Sanity check: SHA-256 of "abc" matches the FIPS 180 test vector. -/
theorem sha256_abc_vector :
    hexStr (sha256Bytes (utf8 ("abc"))) =
      "ba7816bf8f01cfea414140de5dae2223b00361a396177a9cb410ff61f20015ad" := by
  decide

/-- Sanity check: HMAC-SHA256 matches the classic test vector. -/
theorem hmac_vector :
    hexStr (hmacSha256 (utf8 ("key"))
        (utf8 ("The quick brown fox jumps over the lazy dog"))) =
      "f7bc83f430538424b13298e6aa6fb143ef4d59a14946175997479dbc2d1a3cd8" := by
  decide

/-! ## URLs and query parameters

The source mutates `lnurlDetails.url` through the WHATWG `URLSearchParams`
interface.  A URL is modelled as its pre-query part, its host, and the
ordered list of query parameters. -/

/-- A URL: everything before the query string, the host component, and the
ordered query parameters. -/
structure URL where
  base : String
  host : String
  params : List (String × String)
deriving DecidableEq, Repr

/-- `URLSearchParams.set` semantics: replace the value of the first pair
with the given name and drop any further pairs of that name; append when
the name is absent. -/
def setParamList : List (String × String) → String → String → List (String × String)
  | [], n, v => [(n, v)]
  | p :: rest, n, v =>
      if p.1 = n then (n, v) :: rest.filter (fun q => q.1 != n)
      else p :: setParamList rest n v

/-- `URLSearchParams.get` semantics: the value of the first pair with the
given name. -/
def getParam (ps : List (String × String)) (n : String) : Option String :=
  (ps.find? (fun q => q.1 == n)).map (·.2)

/-- Set one query parameter on a URL. -/
def URL.setParam (u : URL) (n v : String) : URL :=
  { u with params := setParamList u.params n v }

/-- The three `searchParams.set` calls of `auth` (auth.ts lines 160–163):
set `sig`, `key` and `t` on the login URL. -/
def buildLoginURL (u : URL) (sig key : String) (now : Nat) : URL :=
  ((u.setParam ("sig") sig).setParam ("key") key).setParam ("t") (toString now)

/-! ## Data model -/

/-- An allowance record of the Dexie `allowances` table, restricted to the
fields this flow reads: host key, primary key id, `enabled` and the
`lnurlAuth` auto-login flag. -/
structure Allowance where
  host : String
  id : Option Nat
  enabled : Bool
  lnurlAuth : Bool
deriving DecidableEq, Repr

/-- Case-insensitive string comparison (Dexie's `equalsIgnoreCase`). -/
def eqIgnoreCase (a b : String) : Bool := strLower a == strLower b

/-- The `db.allowances.where("host").equalsIgnoreCase(host).first()` query:
first record whose host equals the given host ignoring case. -/
def lookupAllowance (dbA : List Allowance) (host : String) : Option Allowance :=
  dbA.find? fun a => eqIgnoreCase a.host host

/-- The `db.allowances.update(id, \x7b lnurlAuth: true \x7d)` write: set the
`lnurlAuth` flag on the record with the given primary key. -/
def updateLnurlAuth (dbA : List Allowance) (i : Nat) : List Allowance :=
  dbA.map fun a => if a.id = some i then { a with lnurlAuth := true } else a

/-- The LNURL details handed to the flow: the challenge tag, the service
URL (with its host and query), and the `k1` hex nonce. -/
structure LNURLDetails where
  tag : String
  url : URL
  k1 : String
deriving DecidableEq, Repr

/-- Parsed JSON body of the auth callback response. -/
structure ServerResp where
  status : String
  reason : Option String
deriving DecidableEq, Repr

/-- An axios transport failure: the optional `reason` of the error response
body, and the error message. -/
structure TransportErr where
  reason : Option String
  message : String
deriving DecidableEq, Repr

/-- The consent prompt's resolved value. -/
structure PromptDecision where
  confirmed : Bool
  remember : Bool
deriving DecidableEq, Repr

/-- The message origin; `none` models an origin object without a `host`
field. -/
structure Origin where
  host : Option String
deriving DecidableEq, Repr

/-- The extension message carrying the request, restricted to the field the
flow reads. -/
structure Message where
  origin : Origin
deriving DecidableEq, Repr

/-- External collaborators, supplied as a record of the values the single
run observes: the unlock password (`state.getState().password`), the
consent prompt's outcome (`Except.error` models a rejected prompt
promise), the connector's signature (empty models a missing signature),
the axios result, and `Date.now()`. -/
structure Env where
  password : Option String
  promptResult : Except String PromptDecision
  signature : String
  httpResult : Except TransportErr ServerResp
  now : Nat

/-- Observable calls to external collaborators, in the order the run makes
them. -/
inductive Effect where
  | publishStart
  | publishSuccess
  | publishFailed
  | dbFirst (host : String)
  | promptOpen
  | getConnector
  | signMessage (msg : String) (family : Nat) (index : Nat)
  | httpGet (u : URL)
  | dbUpdate (id : Nat)
  | saveToStorage
deriving DecidableEq, Repr

/-- The JavaScript return value of `authWithPrompt`: `undefined`, an
`\x7b error \x7d` object (whose error may itself be `undefined`), or a
`\x7b data \x7d` object. -/
inductive AWPResult where
  | noResult
  | err (reason : Option String)
  | ok (resp : ServerResp)
deriving DecidableEq, Repr

/-! ## Key derivation (auth.ts lines 139–149) -/

/-- The fixed phrase signed to derive the hashing key. -/
def LNURLAUTH_CANONICAL_PHRASE : String :=
  "DO NOT EVER SIGN THIS TEXT WITH YOUR PRIVATE KEYS! IT IS ONLY USED FOR DERIVATION OF LNURL-AUTH HASHING-KEY, DISCLOSING ITS SIGNATURE WILL COMPROMISE YOUR LNURL-AUTH IDENTITY AND MAY LEAD TO LOSS OF FUNDS!"

/-- Line 139: `sha256(lnSignature).toString(Hex)`. -/
def hashingKeyOf (sig : String) : String := hexStr (sha256Bytes (utf8 sig))

/-- Lines 143–145: `hmacSHA256(lnurlDetails.url.host, hashingKey)
.toString(Hex)` — in crypto-js the first argument is the message and the
second the key, so this is HMAC-SHA256 keyed by the hashing key (as UTF-8
bytes of its hex string) over the host. -/
def linkingPrivOf (sig host : String) : String :=
  hexStr (hmacSha256 (utf8 (hashingKeyOf sig)) (utf8 host))

/-- The derived key material of one authentication attempt. -/
structure LinkingKeyMaterial where
  hashingKey : String
  linkingPrivateKey : String
deriving DecidableEq, Repr

/-- Derivation of the linking key material from the wallet signature and
the service host. -/
def deriveLinkingKeyMaterial (sig host : String) : LinkingKeyMaterial :=
  ⟨hashingKeyOf sig, linkingPrivOf sig host⟩

/-! ## External helpers not under src/ -/

/-- Hex value of one character. -/
def hexVal (c : Char) : Option Nat :=
  if 48 ≤ c.toNat ∧ c.toNat ≤ 57 then some (c.toNat - 48)
  else if 97 ≤ c.toNat ∧ c.toNat ≤ 102 then some (c.toNat - 87)
  else if 65 ≤ c.toNat ∧ c.toNat ≤ 70 then some (c.toNat - 55)
  else none

/-- Decode an even-length hex character list to bytes. -/
def hexPairs : List Char → Option (List Nat)
  | [] => some []
  | c1 :: c2 :: rest =>
      match hexVal c1, hexVal c2, hexPairs rest with
      | some a, some b, some bs => some ((16 * a + b) :: bs)
      | _, _, _ => none
  | _ => none

/-- Modelled from the spec: `utils.hexToUint8Array` (common/lib/utils is
not under src/).  Decodes the `k1` hex string to bytes; a missing or
malformed `k1` yields `none`, which the caller rejects as an invalid
challenge. -/
def hexToBytes (s : String) : Option (List Nat) :=
  if s = "" then none else hexPairs s.data

/-- Modelled from the spec: the compressed public key hex that
`HashKeySigner` (common/utils/signer, not under src/) derives from the
linking private key — a deterministic function of the private key; the
concrete secp256k1 point arithmetic is external. -/
def signerPkHexOf (privHex : String) : String :=
  "02" ++ hexStr (sha256Bytes (utf8 privHex))

/-- Modelled from the spec: the deterministic DER-encoded hex signature
`HashKeySigner.sign` (not under src/) produces over the `k1` bytes with
the linking private key; modelled as a deterministic function of both. -/
def signerSignDER (privHex : String) (k1 : List Nat) : String :=
  hexStr (hmacSha256 (utf8 privHex) k1)

/-- The failure reason of a transport error (auth.ts line 173):
`e.response?.data?.reason || e.message`, with JavaScript falsiness making
an empty reason fall through to the message. -/
def reasonOrMessage (te : TransportErr) : String :=
  match te.reason with
  | some r => if r = "" then te.message else r
  | none => te.message

/-! ## The `auth` function (auth.ts lines 116–179) -/

/-- Result of one `auth` run: the returned response or thrown error, the
LNURL details as they stand afterwards (`loginURL` aliases
`lnurlDetails.url`, so the `searchParams.set` calls update the challenge's
URL in place), and the trace of external calls. -/
structure AuthOut where
  resp : Except String ServerResp
  finalDetails : LNURLDetails
  trace : List Effect
deriving Repr

/-- Shallow embedding of `auth`: tag guard, connector signature, key
derivation, challenge signing, callback URL construction and HTTP
dispatch, with thrown errors as `Except.error`. -/
def auth (d : LNURLDetails) (env : Env) : AuthOut :=
  if d.tag ≠ "login" then
    ⟨.error ("LNURL-AUTH FAIL: incorrect tag: " ++ d.tag ++ " was used"), d, []⟩
  else
    let tr : List Effect :=
      [.getConnector, .signMessage LNURLAUTH_CANONICAL_PHRASE 0 0]
    let lnSignature := env.signature
    if lnSignature = "" then ⟨.error ("Invalid Signature"), d, tr⟩
    else
      let hashingKey := hashingKeyOf lnSignature
      if d.url.host = "" ∨ hashingKey = "" then ⟨.error ("Invalid input"), d, tr⟩
      else
        let linkingKeyPriv := linkingPrivOf lnSignature d.url.host
        if hashingKey = "" ∨ linkingKeyPriv = "" then
          ⟨.error ("Invalid hashingKey/linkingKey"), d, tr⟩
        else
          match hexToBytes d.k1 with
          | none => ⟨.error ("Invalid K1"), d, tr⟩
          | some k1 =>
              let signedMessageDERHex := signerSignDER linkingKeyPriv k1
              let loginURL := buildLoginURL d.url signedMessageDERHex
                (signerPkHexOf linkingKeyPriv) env.now
              let d2 := { d with url := loginURL }
              match env.httpResult with
              | .ok resp => ⟨.ok resp, d2, tr ++ [.httpGet loginURL]⟩
              | .error te => ⟨.error (reasonOrMessage te), d2, tr ++ [.httpGet loginURL]⟩

/-! ## The `authWithPrompt` function (auth.ts lines 17–109) -/

/-- The auto-approval condition of lines 30–35: wallet unlocked, an
allowance found for the host, and both `enabled` and `lnurlAuth` set. -/
def autoApprove (dbA : List Allowance) (host : String) (pw : Option String) : Bool :=
  pw.isSome &&
    (match lookupAllowance dbA host with
     | some a => a.enabled && a.lnurlAuth
     | none => false)

/-- Lines 30–57: the consent decision — a synthetic
`\x7b confirmed: true, remember: true \x7d` on auto-approval, otherwise
the prompt's outcome, with a rejected prompt promise as `Except.error`. -/
def consentGate (dbA : List Allowance) (host : String) (env : Env) :
    Except String PromptDecision × List Effect :=
  if autoApprove dbA host env.password then (.ok ⟨true, true⟩, [])
  else
    match env.promptResult with
    | .error e => (.error e, [.promptOpen])
    | .ok dec => (.ok dec, [.promptOpen])

/-- Result of one `authWithPrompt` run: the returned value, the allowance
table afterwards, and the trace of external calls. -/
structure RunOut where
  result : AWPResult
  dbOut : List Allowance
  trace : List Effect
deriving Repr

/-- Lines 60–108, after a confirmed consent decision: run `auth`, classify
the outcome, publish the lifecycle event, and on success with `remember`
re-read the allowance, update it when it exists, and save to storage. -/
def afterConsent (host : String) (dec : PromptDecision) (dbA : List Allowance)
    (env : Env) (d : LNURLDetails) : RunOut :=
  let ar := auth d env
  match ar.resp with
  | .error e => ⟨.err (some e), dbA, ar.trace ++ [.publishFailed]⟩
  | .ok resp =>
      if strUpper resp.status ≠ "OK" then
        ⟨.err resp.reason, dbA, ar.trace ++ [.publishFailed]⟩
      else
        let base := ar.trace ++ [.publishSuccess]
        if dec.remember then
          match (lookupAllowance dbA host).bind Allowance.id with
          | some i =>
              ⟨.ok resp, updateLnurlAuth dbA i,
                base ++ [.dbFirst host, .dbUpdate i, .saveToStorage]⟩
          | none => ⟨.ok resp, dbA, base ++ [.dbFirst host, .saveToStorage]⟩
        else ⟨.ok resp, dbA, base⟩

/-- Shallow embedding of `authWithPrompt`: origin-host guard, start event,
allowance lookup, consent gate, and the confirmed-path continuation. -/
def authWithPrompt (msg : Message) (dbA : List Allowance) (env : Env)
    (d : LNURLDetails) : RunOut :=
  match msg.origin.host with
  | none => ⟨.noResult, dbA, []⟩
  | some host =>
      let pre : List Effect := [.publishStart, .dbFirst host]
      match consentGate dbA host env with
      | (.error e, ptr) => ⟨.err (some e), dbA, pre ++ ptr⟩
      | (.ok dec, ptr) =>
          if dec.confirmed then
            let r := afterConsent host dec dbA env d
            ⟨r.result, r.dbOut, pre ++ ptr ++ r.trace⟩
          else ⟨.noResult, dbA, pre ++ ptr⟩

/-! ## Basic facts about the primitives -/

theorem shaCompress_length (hs block : List Nat) : (shaCompress hs block).length = 8 := rfl

theorem sha256Bytes_length (msg : List Nat) : (sha256Bytes msg).length = 32 := by
  have hfold : ∀ (blocks : List (List Nat)) (init : List Nat), init.length = 8 →
      (blocks.foldl shaCompress init).length = 8 := by
    intro blocks
    induction blocks with
    | nil => intro init hi; simpa using hi
    | cons b bs ih =>
        intro init hi
        rw [List.foldl_cons]
        exact ih (shaCompress init b) (shaCompress_length init b)
  have hflat : ∀ hs : List Nat, ((hs.map be4).flatten).length = 4 * hs.length := by
    intro hs
    induction hs with
    | nil => rfl
    | cons b t ih => simp [be4, ih]; omega
  show (((((chunks64 (padMsg msg)).map toWords).foldl shaCompress shaH0).map be4).flatten).length = 32
  rw [hflat]
  rw [hfold _ shaH0 rfl]

theorem sha256Bytes_ne_nil (msg : List Nat) : sha256Bytes msg ≠ [] := by
  intro h
  have := congrArg List.length h
  rw [sha256Bytes_length] at this
  simp at this

theorem hexStr_ne_empty {bs : List Nat} (h : bs ≠ []) : hexStr bs ≠ "" := by
  cases bs with
  | nil => exact absurd rfl h
  | cons b t =>
      intro hcontra
      have hd := congrArg String.data hcontra
      simp [hexStr] at hd

theorem hashingKeyOf_ne_empty (s : String) : hashingKeyOf s ≠ "" :=
  hexStr_ne_empty (sha256Bytes_ne_nil _)

theorem hmacSha256_ne_nil (k m : List Nat) : hmacSha256 k m ≠ [] := by
  unfold hmacSha256
  exact sha256Bytes_ne_nil _

theorem linkingPrivOf_ne_empty (s hst : String) : linkingPrivOf s hst ≠ "" :=
  hexStr_ne_empty (hmacSha256_ne_nil _ _)

/-! ## Query-parameter lemmas -/

theorem find?_filter_ne (rest : List (String × String)) {m n : String} (hm : m ≠ n) :
    (rest.filter fun q => q.1 != n).find? (fun q => q.1 == m) =
      rest.find? (fun q => q.1 == m) := by
  induction rest with
  | nil => rfl
  | cons p t ih =>
      by_cases hp : p.1 = n
      · have hnm : (n == m) = false := by simp [Ne.symm hm]
        simp [List.filter_cons, hp, List.find?_cons, hnm, ih]
      · by_cases hq : p.1 = m
        · simp [List.filter_cons, hp, List.find?_cons, hq, hm]
        · simp [List.filter_cons, hp, List.find?_cons, hq, ih, hm]

theorem getParam_set_same (ps : List (String × String)) (n v : String) :
    getParam (setParamList ps n v) n = some v := by
  induction ps with
  | nil => simp [setParamList, getParam, List.find?_cons]
  | cons p rest ih =>
      by_cases hp : p.1 = n
      · simp [setParamList, hp, getParam, List.find?_cons]
      · simp only [setParamList, if_neg hp]
        simpa [getParam, List.find?_cons, hp] using ih

theorem getParam_set_other (ps : List (String × String)) {m n : String} (v : String)
    (hm : m ≠ n) : getParam (setParamList ps n v) m = getParam ps m := by
  induction ps with
  | nil => simp [setParamList, getParam, List.find?_cons, Ne.symm hm]
  | cons p rest ih =>
      by_cases hp : p.1 = n
      · have hnm : (n == m) = false := by simp [Ne.symm hm]
        simp [setParamList, hp, getParam, List.find?_cons, hnm,
          find?_filter_ne rest hm]
      · by_cases hq : p.1 = m
        · simp [setParamList, getParam, List.find?_cons, hq, hm]
        · simp only [setParamList, if_neg hp]
          simpa [getParam, List.find?_cons, hq] using ih

/-! ## Shape lemmas about `auth` -/

theorem auth_eq_of_valid (d : LNURLDetails) (env : Env) (htag : d.tag = "login")
    (hsig : env.signature ≠ "") (hhost : d.url.host ≠ "")
    (k1bs : List Nat) (hk1 : hexToBytes d.k1 = some k1bs) :
    auth d env =
      ⟨(match env.httpResult with
        | .ok r => .ok r
        | .error te => .error (reasonOrMessage te)),
       { d with url := (buildLoginURL d.url
           (signerSignDER (linkingPrivOf env.signature d.url.host) k1bs)
           (signerPkHexOf (linkingPrivOf env.signature d.url.host)) env.now) },
       [.getConnector, .signMessage LNURLAUTH_CANONICAL_PHRASE 0 0,
        .httpGet (buildLoginURL d.url
           (signerSignDER (linkingPrivOf env.signature d.url.host) k1bs)
           (signerPkHexOf (linkingPrivOf env.signature d.url.host)) env.now)]⟩ := by
  have h2 := hashingKeyOf_ne_empty env.signature
  have h3 := linkingPrivOf_ne_empty env.signature d.url.host
  cases hhttp : env.httpResult with
  | ok r => simp [auth, htag, hsig, hhost, hk1, h2, h3, hhttp]
  | error te => simp [auth, htag, hsig, hhost, hk1, h2, h3, hhttp]

theorem auth_trace_cases (d : LNURLDetails) (env : Env) :
    (auth d env).trace = [] ∨
    (auth d env).trace = [.getConnector, .signMessage LNURLAUTH_CANONICAL_PHRASE 0 0] ∨
    ∃ u, (auth d env).trace =
      [.getConnector, .signMessage LNURLAUTH_CANONICAL_PHRASE 0 0, .httpGet u] := by
  simp only [auth]
  split
  · exact Or.inl rfl
  · split
    · exact Or.inr (Or.inl rfl)
    · split
      · exact Or.inr (Or.inl rfl)
      · split
        · exact Or.inr (Or.inl rfl)
        · split
          · exact Or.inr (Or.inl rfl)
          · split
            · exact Or.inr (Or.inr ⟨_, rfl⟩)
            · exact Or.inr (Or.inr ⟨_, rfl⟩)

theorem mem_auth_trace {d : LNURLDetails} {env : Env} {e : Effect}
    (he : e ∈ (auth d env).trace) :
    e = .getConnector ∨ e = .signMessage LNURLAUTH_CANONICAL_PHRASE 0 0 ∨
      ∃ u, e = .httpGet u := by
  rcases auth_trace_cases d env with h | h | ⟨u, h⟩ <;> rw [h] at he <;>
    simp at he <;> tauto

/-! ## Shape lemmas about the consent gate and the confirmed path -/

theorem consentGate_auto {dbA : List Allowance} {host : String} {env : Env}
    (h : autoApprove dbA host env.password = true) :
    consentGate dbA host env = (.ok ⟨true, true⟩, []) := by
  unfold consentGate
  rw [if_pos h]

theorem consentGate_reject {dbA : List Allowance} {host : String} {env : Env} {e : String}
    (h : autoApprove dbA host env.password = false)
    (he : env.promptResult = .error e) :
    consentGate dbA host env = (.error e, [.promptOpen]) := by
  unfold consentGate
  rw [if_neg (by simp [h]), he]

theorem consentGate_prompt {dbA : List Allowance} {host : String} {env : Env}
    {dec : PromptDecision} (h : autoApprove dbA host env.password = false)
    (hd : env.promptResult = .ok dec) :
    consentGate dbA host env = (.ok dec, [.promptOpen]) := by
  unfold consentGate
  rw [if_neg (by simp [h]), hd]

theorem consentGate_ptr {dbA : List Allowance} {host : String} {env : Env}
    {x : Except String PromptDecision} {ptr : List Effect}
    (h : consentGate dbA host env = (x, ptr)) :
    ptr = [] ∨ ptr = [.promptOpen] := by
  by_cases hb : autoApprove dbA host env.password = true
  · rw [consentGate_auto hb] at h
    exact Or.inl (congrArg Prod.snd h).symm
  · have hb' : autoApprove dbA host env.password = false := by
      revert hb; cases autoApprove dbA host env.password <;> simp
    cases hpr : env.promptResult with
    | error e => rw [consentGate_reject hb' hpr] at h
                 exact Or.inr (congrArg Prod.snd h).symm
    | ok dec => rw [consentGate_prompt hb' hpr] at h
                exact Or.inr (congrArg Prod.snd h).symm

theorem afterConsent_result_ne_noResult (host : String) (dec : PromptDecision)
    (dbA : List Allowance) (env : Env) (d : LNURLDetails) :
    (afterConsent host dec dbA env d).result ≠ .noResult := by
  simp only [afterConsent]
  split
  · simp
  · split
    · simp
    · split
      · split <;> simp
      · simp

/-! ## Reduction lemmas for `authWithPrompt` -/

theorem authWithPrompt_confirmed {msg : Message} {dbA : List Allowance} {env : Env}
    {d : LNURLDetails} {host : String} {pdec : PromptDecision} {ptr : List Effect}
    (hh : msg.origin.host = some host)
    (hc : consentGate dbA host env = (.ok pdec, ptr))
    (hcf : pdec.confirmed = true) :
    authWithPrompt msg dbA env d =
      ⟨(afterConsent host pdec dbA env d).result,
       (afterConsent host pdec dbA env d).dbOut,
       [Effect.publishStart, Effect.dbFirst host] ++ ptr ++
         (afterConsent host pdec dbA env d).trace⟩ := by
  simp [authWithPrompt, hh, hc, hcf]

theorem authWithPrompt_confirmed_result {msg : Message} {dbA : List Allowance} {env : Env}
    {d : LNURLDetails} {host : String} {pdec : PromptDecision} {ptr : List Effect}
    (hh : msg.origin.host = some host)
    (hc : consentGate dbA host env = (.ok pdec, ptr))
    (hcf : pdec.confirmed = true) :
    (authWithPrompt msg dbA env d).result = (afterConsent host pdec dbA env d).result := by
  rw [authWithPrompt_confirmed hh hc hcf]

theorem authWithPrompt_confirmed_dbOut {msg : Message} {dbA : List Allowance} {env : Env}
    {d : LNURLDetails} {host : String} {pdec : PromptDecision} {ptr : List Effect}
    (hh : msg.origin.host = some host)
    (hc : consentGate dbA host env = (.ok pdec, ptr))
    (hcf : pdec.confirmed = true) :
    (authWithPrompt msg dbA env d).dbOut = (afterConsent host pdec dbA env d).dbOut := by
  rw [authWithPrompt_confirmed hh hc hcf]

theorem authWithPrompt_confirmed_trace {msg : Message} {dbA : List Allowance} {env : Env}
    {d : LNURLDetails} {host : String} {pdec : PromptDecision} {ptr : List Effect}
    (hh : msg.origin.host = some host)
    (hc : consentGate dbA host env = (.ok pdec, ptr))
    (hcf : pdec.confirmed = true) :
    (authWithPrompt msg dbA env d).trace =
      [Effect.publishStart, Effect.dbFirst host] ++ ptr ++
        (afterConsent host pdec dbA env d).trace := by
  rw [authWithPrompt_confirmed hh hc hcf]

theorem authWithPrompt_rejected {msg : Message} {dbA : List Allowance} {env : Env}
    {d : LNURLDetails} {host : String} {e : String} {ptr : List Effect}
    (hh : msg.origin.host = some host)
    (hc : consentGate dbA host env = (.error e, ptr)) :
    authWithPrompt msg dbA env d =
      ⟨.err (some e), dbA, [Effect.publishStart, Effect.dbFirst host] ++ ptr⟩ := by
  simp [authWithPrompt, hh, hc]

theorem authWithPrompt_notConfirmed {msg : Message} {dbA : List Allowance} {env : Env}
    {d : LNURLDetails} {host : String} {pdec : PromptDecision} {ptr : List Effect}
    (hh : msg.origin.host = some host)
    (hc : consentGate dbA host env = (.ok pdec, ptr))
    (hcf : pdec.confirmed = false) :
    authWithPrompt msg dbA env d =
      ⟨.noResult, dbA, [Effect.publishStart, Effect.dbFirst host] ++ ptr⟩ := by
  simp [authWithPrompt, hh, hc, hcf]

/-! ## Computation lemmas for `afterConsent` -/

theorem afterConsent_err {host : String} {dec : PromptDecision} {dbA : List Allowance}
    {env : Env} {d : LNURLDetails} {e : String}
    (he : (auth d env).resp = .error e) :
    afterConsent host dec dbA env d =
      ⟨.err (some e), dbA, (auth d env).trace ++ [Effect.publishFailed]⟩ := by
  simp [afterConsent, he]

theorem afterConsent_badStatus {host : String} {dec : PromptDecision} {dbA : List Allowance}
    {env : Env} {d : LNURLDetails} {resp : ServerResp}
    (hr : (auth d env).resp = .ok resp) (hs : strUpper resp.status ≠ "OK") :
    afterConsent host dec dbA env d =
      ⟨.err resp.reason, dbA, (auth d env).trace ++ [Effect.publishFailed]⟩ := by
  simp [afterConsent, hr, hs]

theorem afterConsent_ok_noRemember {host : String} {dec : PromptDecision}
    {dbA : List Allowance} {env : Env} {d : LNURLDetails} {resp : ServerResp}
    (hr : (auth d env).resp = .ok resp) (hs : strUpper resp.status = "OK")
    (hrem : dec.remember = false) :
    afterConsent host dec dbA env d =
      ⟨.ok resp, dbA, (auth d env).trace ++ [Effect.publishSuccess]⟩ := by
  simp [afterConsent, hr, hs, hrem]

theorem afterConsent_ok_remember_none {host : String} {dec : PromptDecision}
    {dbA : List Allowance} {env : Env} {d : LNURLDetails} {resp : ServerResp}
    (hr : (auth d env).resp = .ok resp) (hs : strUpper resp.status = "OK")
    (hrem : dec.remember = true)
    (hid : (lookupAllowance dbA host).bind Allowance.id = none) :
    afterConsent host dec dbA env d =
      ⟨.ok resp, dbA, (auth d env).trace ++
        [Effect.publishSuccess, Effect.dbFirst host, Effect.saveToStorage]⟩ := by
  simp [afterConsent, hr, hs, hrem, hid]

theorem afterConsent_ok_remember_some {host : String} {dec : PromptDecision}
    {dbA : List Allowance} {env : Env} {d : LNURLDetails} {resp : ServerResp} {i : Nat}
    (hr : (auth d env).resp = .ok resp) (hs : strUpper resp.status = "OK")
    (hrem : dec.remember = true)
    (hid : (lookupAllowance dbA host).bind Allowance.id = some i) :
    afterConsent host dec dbA env d =
      ⟨.ok resp, updateLnurlAuth dbA i, (auth d env).trace ++
        [Effect.publishSuccess, Effect.dbFirst host, Effect.dbUpdate i,
          Effect.saveToStorage]⟩ := by
  simp [afterConsent, hr, hs, hrem, hid]

theorem afterConsent_result_ok {host : String} {dec : PromptDecision}
    {dbA : List Allowance} {env : Env} {d : LNURLDetails} {resp : ServerResp}
    (hr : (auth d env).resp = .ok resp) (hs : strUpper resp.status = "OK") :
    (afterConsent host dec dbA env d).result = .ok resp := by
  cases hrem : dec.remember with
  | false => rw [afterConsent_ok_noRemember hr hs hrem]
  | true =>
      cases hid : (lookupAllowance dbA host).bind Allowance.id with
      | none => rw [afterConsent_ok_remember_none hr hs hrem hid]
      | some i => rw [afterConsent_ok_remember_some hr hs hrem hid]

/-! ## Trace-content lemmas -/

/-- True exactly on `dbUpdate` effects. -/
def isDbUpdate (e : Effect) : Bool :=
  match e with
  | .dbUpdate _ => true
  | _ => false

theorem filter_isDbUpdate_auth (d : LNURLDetails) (env : Env) :
    (auth d env).trace.filter isDbUpdate = [] := by
  rcases auth_trace_cases d env with h | h | ⟨u, h⟩ <;> rw [h] <;> rfl

theorem mem_afterConsent_trace {host : String} {dec : PromptDecision}
    {dbA : List Allowance} {env : Env} {d : LNURLDetails} {e : Effect}
    (he : e ∈ (afterConsent host dec dbA env d).trace) :
    e ∈ (auth d env).trace ∨ e = .publishFailed ∨ e = .publishSuccess ∨
      e = .dbFirst host ∨ (∃ i, e = .dbUpdate i) ∨ e = .saveToStorage := by
  revert he
  simp only [afterConsent]
  split
  · intro he; simp at he; tauto
  · split
    · intro he; simp at he; tauto
    · split
      · split
        · intro he; simp at he; tauto
        · intro he; simp at he; tauto
      · intro he; simp at he; tauto

theorem promptOpen_not_in_afterConsent (host : String) (dec : PromptDecision)
    (dbA : List Allowance) (env : Env) (d : LNURLDetails) :
    Effect.promptOpen ∉ (afterConsent host dec dbA env d).trace := by
  intro hmem
  rcases mem_afterConsent_trace hmem with h | h | h | h | ⟨i, h⟩ | h
  · rcases mem_auth_trace h with h1 | h1 | ⟨u, h1⟩ <;> simp at h1
  all_goals simp at h

/-! ## Concrete fixtures used by witnesses and counterexamples -/

/-- The spec's example service URL with `tag` and `k1` query parameters. -/
def url0 : URL :=
  ⟨"https://svc.example/login", "svc.example", [("tag", "login"), ("k1", "ab12")]⟩

/-- A valid login challenge. -/
def d0 : LNURLDetails := ⟨"login", url0, "ab12"⟩

/-- A challenge with an unsupported tag. -/
def dBadTag : LNURLDetails := ⟨"withdraw", url0, "ab12"⟩

/-- A message whose origin has a host. -/
def msg0 : Message := ⟨⟨some ("example.com")⟩⟩

/-- A message whose origin has no host field. -/
def msgNone : Message := ⟨⟨none⟩⟩

/-- A `status: "OK"` server response. -/
def okResp : ServerResp := ⟨"OK", none⟩

/-- Locked wallet, prompt confirming with remember, healthy transport. -/
def envPromptOk : Env :=
  ⟨none, .ok ⟨true, true⟩, "testsig", .ok okResp, 1700000000000⟩

/-- Locked wallet and a rejected (closed) prompt. -/
def envReject : Env :=
  ⟨none, .error ("Prompt was closed"), "testsig", .ok okResp, 1700000000000⟩

/-- Prompt confirming without remember, transport failing with no body. -/
def envHttpErr : Env :=
  ⟨none, .ok ⟨true, false⟩, "testsig", .error ⟨none, "Network Error"⟩, 1700000000000⟩

/-- Unlocked wallet; the prompt, if it were consulted, would reject. -/
def envAuto : Env :=
  ⟨some ("unlocked"), .error ("unused prompt"), "testsig", .ok okResp, 1700000000000⟩

/-- A trust record enabling auto-login, stored under a differently-cased
host. -/
def dbTrust : List Allowance := [⟨"Example.COM", some 1, true, true⟩]

/-- A stored record (with an id) that does not enable auto-login. -/
def dbNoAuto : List Allowance := [⟨"example.com", some 1, false, false⟩]

/-! ## The claims -/

/-- C1: for every wallet signature string and every host string, key
derivation computes `hashingKey` as the hex encoding of SHA-256 of the
signature and `linkingPrivateKey` as the hex encoding of HMAC-SHA256
keyed by `hashingKey` over the host; deriving twice from the same pair
yields identical `LinkingKeyMaterial`. -/
theorem C1_key_derivation_deterministic (s hst : String) :
    hashingKeyOf s = hexStr (sha256Bytes (utf8 s)) ∧
    linkingPrivOf s hst = hexStr (hmacSha256 (utf8 (hashingKeyOf s)) (utf8 hst)) ∧
    deriveLinkingKeyMaterial s hst = ⟨hashingKeyOf s, linkingPrivOf s hst⟩ ∧
    deriveLinkingKeyMaterial s hst = deriveLinkingKeyMaterial s hst :=
  ⟨rfl, rfl, rfl, rfl⟩

/-- C2: a challenge whose tag is not "login" makes `auth` fail with the
unsupported-tag error and an empty effect trace: the signing backend is
never invoked, no key material is derived, and no HTTP dispatch occurs. -/
theorem C2_tag_guard (d : LNURLDetails) (env : Env) (h : d.tag ≠ "login") :
    (auth d env).resp =
      .error ("LNURL-AUTH FAIL: incorrect tag: " ++ d.tag ++ " was used") ∧
    (auth d env).trace = [] := by
  simp [auth, h]

/-- C2 witness: a concrete challenge with tag "withdraw". -/
theorem C2_tag_guard_witness :
    (auth dBadTag envPromptOk).resp =
      .error ("LNURL-AUTH FAIL: incorrect tag: " ++ dBadTag.tag ++ " was used") ∧
    (auth dBadTag envPromptOk).trace = [] :=
  C2_tag_guard dBadTag envPromptOk (by decide)

/-- C8: the callback URL built by the three `searchParams.set` calls keeps
every query parameter whose name is none of `sig`, `key`, `t` unchanged
(such as `tag` and `k1`), and carries `sig`, `key` and `t` with the given
signature hex, public-key hex and millisecond timestamp. -/
theorem C8_callback_params (u : URL) (sig key : String) (now : Nat) (nm : String)
    (h1 : nm ≠ "sig") (h2 : nm ≠ "key") (h3 : nm ≠ "t") :
    getParam (buildLoginURL u sig key now).params nm = getParam u.params nm ∧
    getParam (buildLoginURL u sig key now).params ("sig") = some sig ∧
    getParam (buildLoginURL u sig key now).params ("key") = some key ∧
    getParam (buildLoginURL u sig key now).params ("t") = some (toString now) := by
  have hp : (buildLoginURL u sig key now).params =
      setParamList (setParamList (setParamList u.params ("sig") sig) ("key") key)
        ("t") (toString now) := rfl
  refine ⟨?_, ?_, ?_, ?_⟩
  · rw [hp, getParam_set_other _ _ h3, getParam_set_other _ _ h2,
      getParam_set_other _ _ h1]
  · rw [hp, getParam_set_other _ _ (by decide), getParam_set_other _ _ (by decide),
      getParam_set_same]
  · rw [hp, getParam_set_other _ _ (by decide), getParam_set_same]
  · rw [hp, getParam_set_same]

/-- C8 witness: the spec's example URL, with `tag` as the preserved
parameter. -/
theorem C8_callback_params_witness :
    getParam (buildLoginURL url0 ("deadbeef") ("02abcd") 1700000000000).params ("tag") =
        getParam url0.params ("tag") ∧
    getParam (buildLoginURL url0 ("deadbeef") ("02abcd") 1700000000000).params ("sig") =
        some ("deadbeef") ∧
    getParam (buildLoginURL url0 ("deadbeef") ("02abcd") 1700000000000).params ("key") =
        some ("02abcd") ∧
    getParam (buildLoginURL url0 ("deadbeef") ("02abcd") 1700000000000).params ("t") =
        some (toString 1700000000000) :=
  C8_callback_params url0 ("deadbeef") ("02abcd") 1700000000000 ("tag")
    (by decide) (by decide) (by decide)

/-- C9 counterexample: the claim says building the callback URL leaves the
original serviceURL object unchanged, but `loginURL` aliases
`lnurlDetails.url`, so after `auth` the challenge's URL differs from the
original. -/
theorem C9_counterexample :
    (auth d0 envPromptOk).finalDetails.url ≠ d0.url := by decide

/-- C9 (amended): the callback URL is computed purely from the original
URL, the signature hex, the key hex and the timestamp, but it is written
back into the challenge: after a run that reaches dispatch the
challenge's URL equals the built URL instead of remaining unchanged. -/
theorem C9_amended_url_mutation (d : LNURLDetails) (env : Env) (htag : d.tag = "login")
    (hsig : env.signature ≠ "") (hhost : d.url.host ≠ "")
    (k1bs : List Nat) (hk1 : hexToBytes d.k1 = some k1bs) :
    (auth d env).finalDetails.url =
      buildLoginURL d.url
        (signerSignDER (linkingPrivOf env.signature d.url.host) k1bs)
        (signerPkHexOf (linkingPrivOf env.signature d.url.host)) env.now := by
  rw [auth_eq_of_valid d env htag hsig hhost k1bs hk1]

/-- C9 amended witness: the concrete challenge and environment. -/
theorem C9_amended_witness :
    (auth d0 envPromptOk).finalDetails.url =
      buildLoginURL d0.url
        (signerSignDER (linkingPrivOf envPromptOk.signature d0.url.host) [171, 18])
        (signerPkHexOf (linkingPrivOf envPromptOk.signature d0.url.host))
        envPromptOk.now :=
  C9_amended_url_mutation d0 envPromptOk rfl (by decide) (by decide) [171, 18] (by decide)

/-- C3: with the wallet unlocked and a trust record for the host (found by
case-insensitive lookup) with both flags set, the consent prompt is never
invoked and the flow proceeds with the synthetic decision
`confirmed = true, remember = true`; with the wallet locked the prompt is
invoked even when such a record exists. -/
theorem C3_consent_bypass (msg : Message) (dbA : List Allowance) (d : LNURLDetails)
    (host : String) (hh : msg.origin.host = some host) :
    (∀ (env : Env) (a : Allowance), env.password.isSome = true →
      lookupAllowance dbA host = some a → a.enabled = true → a.lnurlAuth = true →
      consentGate dbA host env = (.ok ⟨true, true⟩, []) ∧
      Effect.promptOpen ∉ (authWithPrompt msg dbA env d).trace) ∧
    (∀ env : Env, env.password = none →
      Effect.promptOpen ∈ (authWithPrompt msg dbA env d).trace) := by
  constructor
  · intro env a hu ha he hl
    have hauto : autoApprove dbA host env.password = true := by
      simp [autoApprove, hu, ha, he, hl]
    have hc := consentGate_auto hauto
    refine ⟨hc, ?_⟩
    rw [authWithPrompt_confirmed_trace hh hc rfl]
    intro hmem
    rcases List.mem_append.mp hmem with h | h
    · simp at h
    · exact promptOpen_not_in_afterConsent host ⟨true, true⟩ dbA env d h
  · intro env hpw
    have hb : autoApprove dbA host env.password = false := by
      simp [autoApprove, hpw]
    cases hpr : env.promptResult with
    | error e =>
        rw [authWithPrompt_rejected hh (consentGate_reject hb hpr)]
        simp
    | ok pdec =>
        have hc := consentGate_prompt hb hpr
        cases hcf : pdec.confirmed with
        | true => rw [authWithPrompt_confirmed_trace hh hc hcf]; simp
        | false => rw [authWithPrompt_notConfirmed hh hc hcf]; simp

/-- C3 witness: a differently-cased trust record with both flags set, an
unlocked environment for the bypass, and a locked one for the prompt. -/
theorem C3_consent_bypass_witness :
    (consentGate dbTrust ("example.com") envAuto = (.ok ⟨true, true⟩, []) ∧
      Effect.promptOpen ∉ (authWithPrompt msg0 dbTrust envAuto d0).trace) ∧
    Effect.promptOpen ∈ (authWithPrompt msg0 dbTrust envPromptOk d0).trace := by
  constructor
  · exact (C3_consent_bypass msg0 dbTrust d0 ("example.com") rfl).1 envAuto
      ⟨"Example.COM", some 1, true, true⟩ rfl (by decide) rfl rfl
  · exact (C3_consent_bypass msg0 dbTrust d0 ("example.com") rfl).2 envPromptOk rfl

/-- C4: once the flow dispatches, it succeeds exactly when the HTTP call
completes and the parsed status upper-cases to "OK"; otherwise it fails
with the server's reason when the response was received, else with the
transport error's reason-or-message. -/
theorem C4_dispatch_classification (msg : Message) (dbA : List Allowance) (env : Env)
    (d : LNURLDetails) (host : String) (pdec : PromptDecision) (ptr : List Effect)
    (k1bs : List Nat)
    (hh : msg.origin.host = some host)
    (hc : consentGate dbA host env = (.ok pdec, ptr))
    (hcf : pdec.confirmed = true)
    (htag : d.tag = "login") (hsig : env.signature ≠ "") (hhost : d.url.host ≠ "")
    (hk1 : hexToBytes d.k1 = some k1bs) :
    (∀ resp : ServerResp, env.httpResult = .ok resp → strUpper resp.status = "OK" →
        (authWithPrompt msg dbA env d).result = .ok resp) ∧
    (∀ resp : ServerResp, env.httpResult = .ok resp → strUpper resp.status ≠ "OK" →
        (authWithPrompt msg dbA env d).result = .err resp.reason) ∧
    (∀ te : TransportErr, env.httpResult = .error te →
        (authWithPrompt msg dbA env d).result = .err (some (reasonOrMessage te))) ∧
    (∀ resp : ServerResp, (authWithPrompt msg dbA env d).result = .ok resp →
        env.httpResult = .ok resp ∧ strUpper resp.status = "OK") := by
  have hauth := auth_eq_of_valid d env htag hsig hhost k1bs hk1
  have hres : (authWithPrompt msg dbA env d).result =
      (afterConsent host pdec dbA env d).result :=
    authWithPrompt_confirmed_result hh hc hcf
  refine ⟨?_, ?_, ?_, ?_⟩
  · intro resp hhttp hok
    have hr : (auth d env).resp = .ok resp := by rw [hauth]; simp [hhttp]
    rw [hres, afterConsent_result_ok hr hok]
  · intro resp hhttp hbad
    have hr : (auth d env).resp = .ok resp := by rw [hauth]; simp [hhttp]
    rw [hres, afterConsent_badStatus hr hbad]
  · intro te hhttp
    have hr : (auth d env).resp = .error (reasonOrMessage te) := by
      rw [hauth]; simp [hhttp]
    rw [hres, afterConsent_err hr]
  · intro resp hout
    rw [hres] at hout
    cases hhttp : env.httpResult with
    | error te =>
        have hr : (auth d env).resp = .error (reasonOrMessage te) := by
          rw [hauth]; simp [hhttp]
        rw [afterConsent_err hr] at hout
        exact absurd hout (by simp)
    | ok r =>
        have hr : (auth d env).resp = .ok r := by rw [hauth]; simp [hhttp]
        by_cases hok : strUpper r.status = "OK"
        · rw [afterConsent_result_ok hr hok] at hout
          have : r = resp := by injection hout
          subst this
          exact ⟨rfl, hok⟩
        · rw [afterConsent_badStatus hr hok] at hout
          exact absurd hout (by simp)

/-- C4 witness: a run that dispatches and receives `status: "OK"`. -/
theorem C4_dispatch_classification_witness :
    (authWithPrompt msg0 dbNoAuto envPromptOk d0).result = .ok okResp :=
  (C4_dispatch_classification msg0 dbNoAuto envPromptOk d0 ("example.com")
      ⟨true, true⟩ [.promptOpen] [171, 18] rfl rfl rfl rfl (by decide)
      (by decide) (by decide)).1 okResp rfl (by decide)

/-- C5 counterexample: a successful run with `remember = true` but no
stored allowance for the host calls the trust-store update zero times,
refuting "update is called exactly once". -/
theorem C5_counterexample :
    (authWithPrompt msg0 [] envPromptOk d0).result = .ok okResp ∧
    envPromptOk.promptResult = .ok ⟨true, true⟩ ∧
    (authWithPrompt msg0 [] envPromptOk d0).trace.filter isDbUpdate = [] ∧
    Effect.saveToStorage ∈ (authWithPrompt msg0 [] envPromptOk d0).trace := by
  refine ⟨by decide, rfl, by decide, by decide⟩

/-- C5 (amended): on success with `remember = true`, the flow re-reads the
allowance for the host; the update is called exactly once (with the
remembered flag set on that record) when the re-read finds a record with
an id, and zero times when it does not; `saveToStorage` is called before
the success value is returned in either case. -/
theorem C5_amended_persistence (msg : Message) (dbA : List Allowance) (env : Env)
    (d : LNURLDetails) (host : String) (pdec : PromptDecision) (ptr : List Effect)
    (resp : ServerResp)
    (hh : msg.origin.host = some host)
    (hc : consentGate dbA host env = (.ok pdec, ptr))
    (hcf : pdec.confirmed = true) (hrem : pdec.remember = true)
    (hr : (auth d env).resp = .ok resp)
    (hok : strUpper resp.status = "OK") :
    ((lookupAllowance dbA host).bind Allowance.id = none →
        (authWithPrompt msg dbA env d).trace.filter isDbUpdate = [] ∧
        (authWithPrompt msg dbA env d).trace =
          [Effect.publishStart, Effect.dbFirst host] ++ ptr ++
            ((auth d env).trace ++
              [Effect.publishSuccess, Effect.dbFirst host, Effect.saveToStorage])) ∧
    (∀ i : Nat, (lookupAllowance dbA host).bind Allowance.id = some i →
        (authWithPrompt msg dbA env d).trace.filter isDbUpdate = [Effect.dbUpdate i] ∧
        (authWithPrompt msg dbA env d).dbOut = updateLnurlAuth dbA i ∧
        (authWithPrompt msg dbA env d).trace =
          [Effect.publishStart, Effect.dbFirst host] ++ ptr ++
            ((auth d env).trace ++
              [Effect.publishSuccess, Effect.dbFirst host, Effect.dbUpdate i,
                Effect.saveToStorage])) ∧
    Effect.saveToStorage ∈ (authWithPrompt msg dbA env d).trace ∧
    (authWithPrompt msg dbA env d).result = .ok resp := by
  have htr : (authWithPrompt msg dbA env d).trace =
      [Effect.publishStart, Effect.dbFirst host] ++ ptr ++
        (afterConsent host pdec dbA env d).trace :=
    authWithPrompt_confirmed_trace hh hc hcf
  have hresl : (authWithPrompt msg dbA env d).result =
      (afterConsent host pdec dbA env d).result :=
    authWithPrompt_confirmed_result hh hc hcf
  have hdbl : (authWithPrompt msg dbA env d).dbOut =
      (afterConsent host pdec dbA env d).dbOut :=
    authWithPrompt_confirmed_dbOut hh hc hcf
  have hptr : ptr.filter isDbUpdate = [] := by
    rcases consentGate_ptr hc with h | h <;> rw [h] <;> rfl
  have hauthf := filter_isDbUpdate_auth d env
  refine ⟨?_, ?_, ?_, ?_⟩
  · intro hid
    have hAC := afterConsent_ok_remember_none hr hok hrem hid
    constructor
    · rw [htr, hAC]
      simp [List.filter_append, hptr, hauthf, isDbUpdate]
    · rw [htr, hAC]
  · intro i hid
    have hAC := afterConsent_ok_remember_some hr hok hrem hid
    refine ⟨?_, ?_, ?_⟩
    · rw [htr, hAC]
      simp [List.filter_append, hptr, hauthf, isDbUpdate]
    · rw [hdbl, hAC]
    · rw [htr, hAC]
  · rw [htr]
    cases hid : (lookupAllowance dbA host).bind Allowance.id with
    | none => rw [afterConsent_ok_remember_none hr hok hrem hid]; simp
    | some i => rw [afterConsent_ok_remember_some hr hok hrem hid]; simp
  · rw [hresl, afterConsent_result_ok hr hok]

/-- C5 amended witness: a stored record with id 1 exists for the host, so
the update fires exactly once and storage is saved before returning. -/
theorem C5_amended_persistence_witness :
    (authWithPrompt msg0 dbNoAuto envPromptOk d0).trace.filter isDbUpdate =
        [Effect.dbUpdate 1] ∧
    (authWithPrompt msg0 dbNoAuto envPromptOk d0).dbOut =
        updateLnurlAuth dbNoAuto 1 ∧
    Effect.saveToStorage ∈ (authWithPrompt msg0 dbNoAuto envPromptOk d0).trace ∧
    (authWithPrompt msg0 dbNoAuto envPromptOk d0).result = .ok okResp := by
  have hmain := C5_amended_persistence msg0 dbNoAuto envPromptOk d0 ("example.com")
    ⟨true, true⟩ [.promptOpen] okResp rfl rfl rfl rfl rfl (by decide)
  have hsome := hmain.2.1 1 (by decide)
  exact ⟨hsome.1, hsome.2.1, hmain.2.2.1, hmain.2.2.2⟩

/-- C6: a cancelled or rejected consent prompt terminates the flow with a
failure carrying the rejection message, and no cryptographic work occurs:
the signing capability is not invoked and nothing is signed or
dispatched. -/
theorem C6_prompt_rejection (msg : Message) (dbA : List Allowance) (env : Env)
    (d : LNURLDetails) (host : String) (e : String)
    (hh : msg.origin.host = some host)
    (hna : autoApprove dbA host env.password = false)
    (hrej : env.promptResult = .error e) :
    (authWithPrompt msg dbA env d).result = .err (some e) ∧
    (authWithPrompt msg dbA env d).trace =
      [Effect.publishStart, Effect.dbFirst host, Effect.promptOpen] ∧
    (∀ m f i, Effect.signMessage m f i ∉ (authWithPrompt msg dbA env d).trace) ∧
    (∀ u, Effect.httpGet u ∉ (authWithPrompt msg dbA env d).trace) := by
  have hc := consentGate_reject hna hrej
  rw [authWithPrompt_rejected hh hc]
  refine ⟨rfl, rfl, ?_, ?_⟩ <;> intros <;> simp

/-- C6 witness: a locked wallet, no auto-approval record, and a rejected
prompt. -/
theorem C6_prompt_rejection_witness :
    (authWithPrompt msg0 dbNoAuto envReject d0).result =
        .err (some ("Prompt was closed")) ∧
    (authWithPrompt msg0 dbNoAuto envReject d0).trace =
      [Effect.publishStart, Effect.dbFirst ("example.com"), Effect.promptOpen] ∧
    (∀ m f i, Effect.signMessage m f i ∉ (authWithPrompt msg0 dbNoAuto envReject d0).trace) ∧
    (∀ u, Effect.httpGet u ∉ (authWithPrompt msg0 dbNoAuto envReject d0).trace) :=
  C6_prompt_rejection msg0 dbNoAuto envReject d0 ("example.com") ("Prompt was closed")
    rfl (by decide) rfl

/-- C7 counterexample: a run failed by prompt rejection returns the failure
without ever publishing a failed lifecycle event, refuting "every
execution that terminates in Failed publishes a failed notification". -/
theorem C7_counterexample :
    (authWithPrompt msg0 [] envReject d0).result = .err (some ("Prompt was closed")) ∧
    Effect.publishFailed ∉ (authWithPrompt msg0 [] envReject d0).trace := by
  refine ⟨by decide, by decide⟩

/-- C7 (amended): a failure reached after consent was given (an `auth`
error or a non-"OK" status) publishes the failed lifecycle event before
returning, but the failure produced by a rejected consent prompt returns
without publishing it. -/
theorem C7_amended_failed_event (msg : Message) (dbA : List Allowance) (d : LNURLDetails)
    (host : String) (hh : msg.origin.host = some host) :
    (∀ (env : Env) (pdec : PromptDecision) (ptr : List Effect),
      consentGate dbA host env = (.ok pdec, ptr) → pdec.confirmed = true →
      ∀ r, (authWithPrompt msg dbA env d).result = .err r →
        Effect.publishFailed ∈ (authWithPrompt msg dbA env d).trace) ∧
    (∀ (env : Env) (e : String), autoApprove dbA host env.password = false →
      env.promptResult = .error e →
      (authWithPrompt msg dbA env d).result = .err (some e) ∧
      Effect.publishFailed ∉ (authWithPrompt msg dbA env d).trace) := by
  constructor
  · intro env pdec ptr hc hcf r hres
    have hresl : (authWithPrompt msg dbA env d).result =
        (afterConsent host pdec dbA env d).result :=
      authWithPrompt_confirmed_result hh hc hcf
    have htr : (authWithPrompt msg dbA env d).trace =
        [Effect.publishStart, Effect.dbFirst host] ++ ptr ++
          (afterConsent host pdec dbA env d).trace :=
      authWithPrompt_confirmed_trace hh hc hcf
    rw [hresl] at hres
    rw [htr]
    cases hr : (auth d env).resp with
    | error e2 =>
        rw [afterConsent_err hr]
        simp
    | ok resp =>
        by_cases hok : strUpper resp.status = "OK"
        · rw [afterConsent_result_ok hr hok] at hres
          exact absurd hres (by simp)
        · rw [afterConsent_badStatus hr hok]
          simp
  · intro env e hna hrej
    rw [authWithPrompt_rejected hh (consentGate_reject hna hrej)]
    exact ⟨rfl, by simp⟩

/-- C7 amended witness: a transport failure publishes the failed event; a
prompt rejection fails without publishing it. -/
theorem C7_amended_failed_event_witness :
    Effect.publishFailed ∈ (authWithPrompt msg0 dbNoAuto envHttpErr d0).trace ∧
    ((authWithPrompt msg0 dbNoAuto envReject d0).result =
        .err (some ("Prompt was closed")) ∧
      Effect.publishFailed ∉ (authWithPrompt msg0 dbNoAuto envReject d0).trace) := by
  constructor
  · exact (C7_amended_failed_event msg0 dbNoAuto d0 ("example.com") rfl).1 envHttpErr
      ⟨true, false⟩ [.promptOpen] rfl rfl (some ("Network Error")) (by decide)
  · exact (C7_amended_failed_event msg0 dbNoAuto d0 ("example.com") rfl).2 envReject
      ("Prompt was closed") (by decide) rfl

/-- C10: `authWithPrompt` returns no outcome at all exactly when the origin
has no host, or when the prompt was consulted and resolved unconfirmed;
in those runs nothing is signed or dispatched and neither success nor
failed lifecycle events are published. -/
theorem C10_noResult_characterization (msg : Message) (dbA : List Allowance) (env : Env)
    (d : LNURLDetails) :
    ((authWithPrompt msg dbA env d).result = .noResult ↔
      (msg.origin.host = none ∨
        ∃ host pdec, msg.origin.host = some host ∧
          autoApprove dbA host env.password = false ∧
          env.promptResult = .ok pdec ∧ pdec.confirmed = false)) ∧
    ((authWithPrompt msg dbA env d).result = .noResult →
      (∀ m f i, Effect.signMessage m f i ∉ (authWithPrompt msg dbA env d).trace) ∧
      (∀ u, Effect.httpGet u ∉ (authWithPrompt msg dbA env d).trace) ∧
      Effect.publishSuccess ∉ (authWithPrompt msg dbA env d).trace ∧
      Effect.publishFailed ∉ (authWithPrompt msg dbA env d).trace) := by
  cases hh : msg.origin.host with
  | none =>
      have heq : authWithPrompt msg dbA env d = ⟨.noResult, dbA, []⟩ := by
        simp [authWithPrompt, hh]
      rw [heq]
      constructor
      · simp
      · intro _
        refine ⟨?_, ?_, ?_, ?_⟩ <;> intros <;> simp
  | some host =>
      by_cases hb : autoApprove dbA host env.password = true
      · have hc := consentGate_auto hb
        have hres : (authWithPrompt msg dbA env d).result =
            (afterConsent host ⟨true, true⟩ dbA env d).result :=
          authWithPrompt_confirmed_result hh hc rfl
        have hne := afterConsent_result_ne_noResult host ⟨true, true⟩ dbA env d
        constructor
        · rw [hres]
          constructor
          · intro hcontra; exact absurd hcontra hne
          · intro hdisj
            rcases hdisj with h | ⟨host2, pdec2, hh2, hfalse, _, _⟩
            · exact Option.noConfusion h
            · injection hh2 with h3
              subst h3
              rw [hb] at hfalse
              exact Bool.noConfusion hfalse
        · intro hcontra
          rw [hres] at hcontra
          exact absurd hcontra hne
      · have hb' : autoApprove dbA host env.password = false := by
          revert hb; cases autoApprove dbA host env.password <;> simp
        cases hpr : env.promptResult with
        | error e =>
            rw [authWithPrompt_rejected hh (consentGate_reject hb' hpr)]
            constructor
            · constructor
              · intro hcontra; exact AWPResult.noConfusion hcontra
              · intro hdisj
                rcases hdisj with h | ⟨host2, pdec2, hh2, _, hpr2, _⟩
                · exact Option.noConfusion h
                · exact Except.noConfusion hpr2
            · intro hcontra; exact absurd hcontra (by simp)
        | ok pdec =>
            have hc := consentGate_prompt hb' hpr
            cases hcf : pdec.confirmed with
            | true =>
                have hres : (authWithPrompt msg dbA env d).result =
                    (afterConsent host pdec dbA env d).result :=
                  authWithPrompt_confirmed_result hh hc hcf
                have hne := afterConsent_result_ne_noResult host pdec dbA env d
                constructor
                · rw [hres]
                  constructor
                  · intro hcontra; exact absurd hcontra hne
                  · intro hdisj
                    rcases hdisj with h | ⟨host2, pdec2, hh2, _, hpr2, hcf2⟩
                    · exact Option.noConfusion h
                    · injection hpr2 with h3
                      subst h3
                      rw [hcf] at hcf2
                      exact Bool.noConfusion hcf2
                · intro hcontra
                  rw [hres] at hcontra
                  exact absurd hcontra hne
            | false =>
                rw [authWithPrompt_notConfirmed hh hc hcf]
                constructor
                · constructor
                  · intro _
                    exact Or.inr ⟨host, pdec, rfl, hb', rfl, hcf⟩
                  · intro _; rfl
                · intro _
                  refine ⟨?_, ?_, ?_, ?_⟩ <;> intros <;> simp

/-- C10 witness: an origin without a host returns no outcome and publishes
neither success nor failed events. -/
theorem C10_noResult_characterization_witness :
    (authWithPrompt msgNone [] envPromptOk d0).result = .noResult ∧
    Effect.publishSuccess ∉ (authWithPrompt msgNone [] envPromptOk d0).trace ∧
    Effect.publishFailed ∉ (authWithPrompt msgNone [] envPromptOk d0).trace := by
  have h1 := (C10_noResult_characterization msgNone [] envPromptOk d0).1.mpr
    (Or.inl rfl)
  have h2 := (C10_noResult_characterization msgNone [] envPromptOk d0).2 h1
  exact ⟨h1, h2.2.2.1, h2.2.2.2⟩

end LnurlAuth
